import Mathlib

/- Shallow embedding of the onebot-go core: the event dispatch engine
   (pkg/event: Dispatcher, Context, middleware chain) and the WebSocket
   RPC correlator (internal/server/bot_server.go).  Go maps are modelled
   as functions into Option, Go interface values carrying metadata as a
   small inductive of ground values, and handler side effects as explicit
   state passing over an arbitrary world type sigma.  The read loop and
   the call/response correlation are modelled as a step function over an
   explicit server state, with concurrency flattened to interleavings of
   atomic actions. -/

/-- Ground values stored in the per-dispatch metadata bag (Go
interface values in the map Metadata). -/
inductive GoVal where
  | vInt : Int → GoVal
  | vStr : String → GoVal
  | vBool : Bool → GoVal
deriving DecidableEq

/-- Value carried by a Go panic: Go recover distinguishes values that
implement the error interface from all other values (RecoveryMiddleware
only converts the former). -/
inductive PanicVal where
  | errVal : String → PanicVal
  | plain : GoVal → PanicVal
deriving DecidableEq

/-- Result of running a handler body or a middleware-wrapped chain: a
nil error, a non-nil error (its message), or an unwound panic. -/
inductive Outcome where
  | ok : Outcome
  | err : String → Outcome
  | panicked : PanicVal → Outcome
deriving DecidableEq

/-- Payload of a message event (types.MessageEvent, the fields the
claims touch). -/
structure MessageEvent where
  time : Int
  selfId : Int
  messageType : String
  userId : Int
  RawMessage : String
  groupId : Int
deriving DecidableEq

/-- Payload of a notice event (types.NoticeEvent). -/
structure NoticeEvent where
  noticeType : String
  userId : Int
deriving DecidableEq

/-- Payload of a request event (types.RequestEvent). -/
structure RequestEvent where
  requestType : String
  userId : Int
deriving DecidableEq

/-- Payload of a meta event (types.MetaEvent). -/
structure MetaEvent where
  metaEventType : String
deriving DecidableEq

/-- Decoded protocol event: the closed set of variants routed by the
dispatcher (Go routes on reflect.TypeOf of the decoded pointer). -/
inductive Event where
  | message : MessageEvent → Event
  | notice : NoticeEvent → Event
  | request : RequestEvent → Event
  | meta : MetaEvent → Event
deriving DecidableEq

/-- Dynamic type key of an event, the reflect.Type the Go dispatcher
uses as the registry key. -/
inductive EventType where
  | message : EventType
  | notice : EventType
  | request : EventType
  | meta : EventType
deriving DecidableEq

/-- Dynamic type of a decoded event (reflect.TypeOf event). -/
def Event.typeOf : Event → EventType
  | Event.message _ => EventType.message
  | Event.notice _ => EventType.notice
  | Event.request _ => EventType.request
  | Event.meta _ => EventType.meta

/-- Per-dispatch handler context (event.Context): the decoded event, the
metadata map, and the abort flag.  The Go map is modelled as a function
into Option. -/
structure Context where
  Event : Event
  Metadata : String → Option GoVal
  aborted : Bool

/-- Context.Set: store a metadata value (Go map assignment). -/
def Context.Set (c : Context) (k : String) (v : GoVal) : Context :=
  { c with Metadata := fun q => if q = k then some v else c.Metadata q }

/-- Context.Get: look up a metadata value; none models the ok=false
branch of the Go map read. -/
def Context.Get (c : Context) (k : String) : Option GoVal :=
  c.Metadata k

/-- Context.Abort: set the abort flag. -/
def Context.Abort (c : Context) : Context :=
  { c with aborted := true }

/-- Context.IsAborted: read the abort flag. -/
def Context.IsAborted (c : Context) : Bool :=
  c.aborted

/-- Body of a handler invocation (the Handle method reached through
applyMiddlewares): it may read and mutate the context, mutate an
external world sigma (closure state, logging, outbound calls), and
finishes with an Outcome. -/
def HandlerFunc (σ : Type) : Type :=
  Context → σ → Context × σ × Outcome

/-- One registration stored in the dispatcher registry
(event.handlerWrapper). -/
structure handlerWrapper (σ : Type) where
  handler : HandlerFunc σ
  priority : Int
  name : String

/-- Middleware (event.Middleware): wraps a next handler function and
returns a replacement with the same signature. -/
def Middleware (σ : Type) : Type :=
  HandlerFunc σ → HandlerFunc σ

/-- One call made to the configured error handler (the error sink):
dispatchToHandlers passes the handler error, the event type and the
handler name. -/
structure Reported where
  err : String
  eventType : EventType
  handlerName : String
deriving DecidableEq

/-- The event dispatcher (event.Dispatcher).  hasErrorHandler models
whether errorHandler is non-nil (NewDispatcher installs a default). -/
structure Dispatcher (σ : Type) where
  handlers : EventType → List (handlerWrapper σ)
  middlewares : List (Middleware σ)
  async : Bool
  hasErrorHandler : Bool

/-- NewDispatcher: empty registry, synchronous mode, default error
handler installed. -/
def NewDispatcher (σ : Type) : Dispatcher σ :=
  { handlers := fun _ => []
    middlewares := []
    async := false
    hasErrorHandler := true }

/-- Dispatcher.SetAsync. -/
def Dispatcher.SetAsync {σ : Type} (d : Dispatcher σ) (b : Bool) : Dispatcher σ :=
  { d with async := b }

/-- Dispatcher.Use: append one global middleware. -/
def Dispatcher.Use {σ : Type} (d : Dispatcher σ) (m : Middleware σ) : Dispatcher σ :=
  { d with middlewares := d.middlewares ++ [m] }

/-- Ordering used by the registry sort: the less function passed to
sort.Slice compares priorities (lower number earlier). -/
def byPriority {σ : Type} (a b : handlerWrapper σ) : Prop :=
  a.priority ≤ b.priority

instance {σ : Type} : DecidableRel (byPriority (σ := σ)) :=
  fun a b => inferInstanceAs (Decidable (a.priority ≤ b.priority))

instance {σ : Type} : IsTotal (handlerWrapper σ) byPriority :=
  ⟨fun a b => Int.le_total a.priority b.priority⟩

instance {σ : Type} : IsTrans (handlerWrapper σ) byPriority :=
  ⟨fun _ _ _ hab hbc => le_trans hab hbc⟩

/-- Contract of Go sort.Slice with the priority less function: the
result is a permutation of the input, nondecreasing in priority.
sort.Slice is documented as NOT stable, so nothing more is promised. -/
def SliceSortSpec {σ : Type} (sortFn : List (handlerWrapper σ) → List (handlerWrapper σ)) : Prop :=
  ∀ l, (sortFn l).Perm l ∧ List.Sorted byPriority (sortFn l)

/-- Dispatcher.register parametrized by the sort implementation: append
the new wrapper to the list for the event type key, then re-sort that
list by priority. -/
def registerWith {σ : Type} (sortFn : List (handlerWrapper σ) → List (handlerWrapper σ))
    (d : Dispatcher σ) (eventType : EventType) (handler : HandlerFunc σ)
    (priority : Int) (name : String) : Dispatcher σ :=
  let newList := sortFn (d.handlers eventType ++ [⟨handler, priority, name⟩])
  { d with handlers := fun t => if t = eventType then newList else d.handlers t }

/-- Concrete sort standing for sort.Slice on the slices the claims
exercise: Go sorts slices below its pdqsort threshold with a stable
insertion sort, which insertionSort matches; the general development
quantifies over SliceSortSpec instead of fixing this choice. -/
def goSort {σ : Type} (l : List (handlerWrapper σ)) : List (handlerWrapper σ) :=
  List.insertionSort byPriority l

/-- Dispatcher.register with the concrete sort. -/
def Dispatcher.register {σ : Type} (d : Dispatcher σ) (eventType : EventType)
    (handler : HandlerFunc σ) (priority : Int) (name : String) : Dispatcher σ :=
  registerWith goSort d eventType handler priority name

/-- applyMiddlewares: wrap the handler from the back of the middleware
list to the front, so the first middleware in the list is outermost. -/
def applyMiddlewares {σ : Type} (handler : HandlerFunc σ)
    (middlewares : List (Middleware σ)) : HandlerFunc σ :=
  middlewares.foldr (fun m h => m h) handler

/-- Message the invokeHandler recover branch formats from a panic
value (the v part of the fmt.Errorf verb). -/
def panicText : PanicVal → String
  | PanicVal.errVal e => e
  | PanicVal.plain (GoVal.vInt n) => toString n
  | PanicVal.plain (GoVal.vStr s) => s
  | PanicVal.plain (GoVal.vBool b) => toString b

/-- Fresh context built by invokeHandler for one handler invocation:
the event, an empty metadata map, abort flag false. -/
def freshContext (event : Event) : Context :=
  { Event := event, Metadata := fun _ => none, aborted := false }

/-- Dispatcher.invokeHandler: build a fresh context, wrap the handler
body in the middleware chain, run it; the deferred recover converts a
panic escaping the wrapped call into the non-nil error
"panic in handler name: v". -/
def invokeHandler {σ : Type} (d : Dispatcher σ) (event : Event)
    (w : handlerWrapper σ) (s : σ) : σ × Option String :=
  let eventCtx := freshContext event
  let wrapped := applyMiddlewares w.handler d.middlewares
  match wrapped eventCtx s with
  | (_, s1, Outcome.ok) => (s1, none)
  | (_, s1, Outcome.err e) => (s1, some e)
  | (_, s1, Outcome.panicked v) =>
      (s1, some ("panic in handler " ++ w.name ++ ": " ++ panicText v))

/-- Observable result of one dispatch pass: the final world, the calls
made to the error sink, the names of the handlers invoked in order (a
ghost trace of the loop iterations of dispatchToHandlers), and the
error value returned to the caller. -/
structure DispatchOut (σ : Type) where
  world : σ
  reported : List Reported
  invoked : List String
  ret : Option String

/-- Dispatcher.dispatchToHandlers: iterate over ALL wrappers in slice
order; a non-nil error from invokeHandler is passed to the error
handler when one is set; the loop carries no abort check and the
function returns nil. -/
def dispatchToHandlers {σ : Type} (d : Dispatcher σ) (event : Event)
    (eventType : EventType) :
    List (handlerWrapper σ) → σ → DispatchOut σ
  | [], s => ⟨s, [], [], none⟩
  | w :: rest, s =>
      let step := invokeHandler d event w s
      let rep : List Reported :=
        match step.2 with
        | some e => if d.hasErrorHandler then [⟨e, eventType, w.name⟩] else []
        | none => []
      let out := dispatchToHandlers d event eventType rest step.1
      ⟨out.world, rep ++ out.reported, w.name :: out.invoked, out.ret⟩

/-- Dispatcher.Dispatch: look up the wrappers for the dynamic event
type (no handlers is a no-op returning nil); in async mode hand the
whole chain to a background task and return nil at once (the chain
effects still happen, in that task); in sync mode run the chain and
return its (always nil) result. -/
def Dispatch {σ : Type} (d : Dispatcher σ) (event : Event) (s : σ) : DispatchOut σ :=
  let eventType := event.typeOf
  let wrappers := d.handlers eventType
  if wrappers.isEmpty then ⟨s, [], [], none⟩
  else if d.async then
    let out := dispatchToHandlers d event eventType wrappers s
    ⟨out.world, out.reported, out.invoked, none⟩
  else
    dispatchToHandlers d event eventType wrappers s

/-- RecoveryMiddleware: runs next under a deferred recover; a recovered
value that implements the error interface is assigned to the named
error result, any other recovered value leaves the named result at its
zero value nil; a normal return passes through untouched. -/
def RecoveryMiddleware {σ : Type} : Middleware σ :=
  fun next => fun ctx s =>
    match next ctx s with
    | (c1, s1, Outcome.panicked (PanicVal.errVal e)) => (c1, s1, Outcome.err e)
    | (c1, s1, Outcome.panicked (PanicVal.plain _)) => (c1, s1, Outcome.ok)
    | r => r

/-- Response envelope payload (types.APIResponse, the fields CallAPI
inspects). -/
structure APIResponse where
  Status : String
  RetCode : Int
  Data : Option GoVal
  Message : String
deriving DecidableEq

/-- Value CallAPI finally returns for one call. -/
inductive CallResult where
  | success : APIResponse → CallResult
  | protocolErr : APIResponse → CallResult
  | failed : String → CallResult
deriving DecidableEq

/-- What CallAPI returns once its select receives resp from the
response channel: a status other than ok and async is surfaced as an
error alongside the response, otherwise the response alone. -/
def recvResult (r : APIResponse) : CallResult :=
  if r.Status = "ok" ∨ r.Status = "async" then CallResult.success r
  else CallResult.protocolErr r

/-- Lifecycle phase of one correlation token: never used, caller
blocked in select with its entry in the table, response handed into
the channel by the read loop (entry already removed), or the call
returned. -/
inductive Phase where
  | idle : Phase
  | waiting : Phase
  | handed : APIResponse → Phase
  | finished : CallResult → Phase
deriving DecidableEq

/-- Pointwise update of a Bool-valued table. -/
def updB (f : String → Bool) (e : String) (v : Bool) : String → Bool :=
  fun q => if q = e then v else f q

/-- Pointwise update of a Phase-valued table. -/
def updP (f : String → Phase) (e : String) (v : Phase) : String → Phase :=
  fun q => if q = e then v else f q

/-- State of the WSServer correlator: the connected flag, whether
activeClient is non-nil, membership of the pendingCalls map, and the
ghost per-token caller phase. -/
structure SrvState where
  connected : Bool
  hasActiveClient : Bool
  inTable : String → Bool
  phase : String → Phase

/-- Initial server state of NewWSServer: disconnected, no client, an
empty pending table. -/
def initSrv : SrvState :=
  { connected := false
    hasActiveClient := false
    inTable := fun _ => false
    phase := fun _ => Phase.idle }

/-- Outcome of the synchronous prefix of CallAPI (everything before the
select): either an immediate error return, or the call is now pending
and the caller blocks in select. -/
inductive CallEntry where
  | errored : String → CallEntry
  | waiting : CallEntry
deriving DecidableEq

/-- Remove a pending entry and finish its call with an error (the
Delete plus early error return CallAPI performs on marshal, nil
connection and send failures, and on timeout). -/
def failPending (st : SrvState) (echo : String) (msg : String) : SrvState :=
  { st with inTable := updB st.inTable echo false
            phase := updP st.phase echo (Phase.finished (CallResult.failed msg)) }

/-- CallAPI up to its select, mirrored statement by statement: the
IsConnected fast path returns before anything is stored; then the
fresh echo is stored in pendingCalls; marshal failure, a nil
activeClient and a send failure each Delete the entry and return an
error; otherwise the caller blocks waiting for the response.
marshalOk and sendOk abstract json.Marshal and conn.WriteMessage. -/
def CallAPIentry (st : SrvState) (echo : String) (marshalOk : Bool) (sendOk : Bool) :
    SrvState × CallEntry :=
  if st.connected = false then
    (st, CallEntry.errored "not connected to OneBot client")
  else
    let st1 : SrvState :=
      { st with inTable := updB st.inTable echo true
                phase := updP st.phase echo Phase.waiting }
    if marshalOk = false then
      (failPending st1 echo "failed to marshal request",
       CallEntry.errored "failed to marshal request")
    else if st.hasActiveClient = false then
      (failPending st1 echo "no active connection",
       CallEntry.errored "no active connection")
    else if sendOk = false then
      (failPending st1 echo "failed to send request",
       CallEntry.errored "failed to send request")
    else
      (st1, CallEntry.waiting)

/-- Atomic interleaving actions on the correlator shared state: a call
reaching its select (start), the read loop handling an inbound message
bearing a correlation token (respond), a call timeout electing its
select branch (fire), and a caller receiving the handed response
(recv). -/
inductive CorrAct where
  | start : String → CorrAct
  | respond : String → APIResponse → CorrAct
  | fire : String → CorrAct
  | recv : String → CorrAct

/-- Correlation token an action concerns. -/
def CorrAct.token : CorrAct → String
  | CorrAct.start e => e
  | CorrAct.respond e _ => e
  | CorrAct.fire e => e
  | CorrAct.recv e => e

/-- One atomic step of the correlator.
start: the success path of CallAPIentry for a fresh token (UUID
freshness is the guard phase = idle).
respond: pendingCalls.LoadAndDelete — when the token is present the
entry is removed and the response handed into the one-slot channel;
when absent the message is dropped and the state is untouched.
fire: the timeout branch of the select removes the entry and finishes
the call with the timeout error; it can only win while the caller is
still waiting.
recv: the response branch of the select consumes the handed value. -/
def stepAct (st : SrvState) : CorrAct → SrvState
  | CorrAct.start e =>
      if st.phase e = Phase.idle ∧ st.connected = true ∧ st.hasActiveClient = true then
        { st with inTable := updB st.inTable e true
                  phase := updP st.phase e Phase.waiting }
      else st
  | CorrAct.respond e r =>
      if st.inTable e = true then
        { st with inTable := updB st.inTable e false
                  phase := updP st.phase e (Phase.handed r) }
      else st
  | CorrAct.fire e =>
      if st.phase e = Phase.waiting then
        failPending st e "API call timeout"
      else st
  | CorrAct.recv e =>
      match st.phase e with
      | Phase.handed r => { st with phase := updP st.phase e (Phase.finished (recvResult r)) }
      | _ => st

/-- Run a list of interleaved actions. -/
def runActs (st : SrvState) (acts : List CorrAct) : SrvState :=
  acts.foldl stepAct st

/-- One inbound wire message, abstracted to what the two decoding
stages extract from it.  respOk abstracts whether json.Unmarshal into
the echo plus APIResponse struct succeeds, echo is the decoded token
(empty string when the field is absent); baseOk abstracts unmarshalling
the base Event envelope, postType the decoded discriminant (empty
string when absent), variantOk the variant re-decode. -/
structure WireMsg where
  respOk : Bool
  echo : String
  resp : APIResponse
  baseOk : Bool
  postType : String
  variantOk : Bool
  msgPayload : MessageEvent
  noticePayload : NoticeEvent
  requestPayload : RequestEvent
  metaPayload : MetaEvent

/-- ParseEvent: unmarshal the generic envelope, then switch on
post_type and re-decode the variant payload; an unknown or empty
discriminant falls to the default branch and is a decoding error. -/
def ParseEvent (m : WireMsg) : Except String Event :=
  if m.baseOk = false then Except.error "unmarshal error"
  else if m.postType = "message" then
    if m.variantOk = true then Except.ok (Event.message m.msgPayload)
    else Except.error "unmarshal error"
  else if m.postType = "notice" then
    if m.variantOk = true then Except.ok (Event.notice m.noticePayload)
    else Except.error "unmarshal error"
  else if m.postType = "request" then
    if m.variantOk = true then Except.ok (Event.request m.requestPayload)
    else Except.error "unmarshal error"
  else if m.postType = "meta_event" then
    if m.variantOk = true then Except.ok (Event.meta m.metaPayload)
    else Except.error "unmarshal error"
  else Except.error ("unknown post_type: " ++ m.postType)

/-- What one read-loop iteration did with a message. -/
inductive Handled where
  | resolved : Handled
  | dispatched : Event → Handled
  | dropped : String → Handled
deriving DecidableEq

/-- One iteration of the HandlerWebsocket read loop: first test the
call-response shape (unmarshal succeeded and echo non-empty) and if so
resolve through the pending table and continue; otherwise ParseEvent,
and on a decoding error log, drop the message and continue; otherwise
dispatch the event. -/
def processMessage {σ : Type} (d : Dispatcher σ) (st : SrvState) (s : σ) (m : WireMsg) :
    SrvState × σ × Handled :=
  if m.respOk = true ∧ m.echo ≠ "" then
    (stepAct st (CorrAct.respond m.echo m.resp), s, Handled.resolved)
  else
    match ParseEvent m with
    | Except.error e => (st, s, Handled.dropped e)
    | Except.ok evt =>
        let out := Dispatch d evt s
        (st, out.world, Handled.dispatched evt)

/-- The read loop over a finite inbound message sequence: processes one
message at a time; dropped messages do not stop the loop. -/
def readLoop {σ : Type} (d : Dispatcher σ) :
    SrvState → σ → List WireMsg → SrvState × σ × List Handled
  | st, s, [] => (st, s, [])
  | st, s, m :: rest =>
      let one := processMessage d st s m
      let more := readLoop d one.1 one.2.1 rest
      (more.1, more.2.1, one.2.2 :: more.2.2)

/- ======================= helper lemmas ======================= -/

/-- The ghost invocation trace of dispatchToHandlers is the name of
every wrapper, in slice order: the loop body never exits early. -/
theorem dispatchToHandlers_invoked {σ : Type} (d : Dispatcher σ) (event : Event)
    (et : EventType) (ws : List (handlerWrapper σ)) (s : σ) :
    (dispatchToHandlers d event et ws s).invoked = ws.map (fun w => w.name) := by
  induction ws generalizing s with
  | nil => rfl
  | cons w rest ih => simp [dispatchToHandlers, ih]

/-- dispatchToHandlers always returns nil. -/
theorem dispatchToHandlers_ret_none {σ : Type} (d : Dispatcher σ) (event : Event)
    (et : EventType) (ws : List (handlerWrapper σ)) (s : σ) :
    (dispatchToHandlers d event et ws s).ret = none := by
  induction ws generalizing s with
  | nil => rfl
  | cons w rest ih => simp [dispatchToHandlers, ih]

/-- Dispatch invokes exactly the registered wrappers of the dynamic
event type, in list order, in every mode. -/
theorem Dispatch_invoked {σ : Type} (d : Dispatcher σ) (event : Event) (s : σ) :
    (Dispatch d event s).invoked = (d.handlers event.typeOf).map (fun w => w.name) := by
  cases hl : d.handlers event.typeOf with
  | nil => simp [Dispatch, hl]
  | cons w rest =>
      by_cases ha : d.async <;>
        simp [Dispatch, hl, ha, dispatchToHandlers_invoked]

/- ======================= C10 ======================= -/

/-- C10: for every event, every set of registered handlers, and in both
asynchronous and synchronous mode, Dispatch returns a nil error; handler
errors reach only the error sink (the reported list), never the caller
of Dispatch. -/
theorem dispatch_returns_nil {σ : Type} (d : Dispatcher σ) (event : Event) (s : σ) :
    (Dispatch (d.SetAsync true) event s).ret = none ∧
    (Dispatch (d.SetAsync false) event s).ret = none := by
  constructor <;>
    · cases hl : (d.handlers event.typeOf) with
      | nil => simp [Dispatch, Dispatcher.SetAsync, hl]
      | cons w rest => simp [Dispatch, Dispatcher.SetAsync, hl, dispatchToHandlers_ret_none]

/- ======================= C1 ======================= -/

/-- Handler A of the abort scenario: calls Abort on its context and
records in the world whether the flag was indeed set. -/
def abortHandlerA : HandlerFunc (List String) :=
  fun c s =>
    let c1 := c.Abort
    (c1, s ++ [if c1.IsAborted then "A ran and aborted" else "A ran"], Outcome.ok)

/-- Handler B of the abort scenario: only records that it was executed. -/
def recordHandlerB : HandlerFunc (List String) :=
  fun c s => (c, s ++ ["B ran"], Outcome.ok)

/-- Dispatcher of the abort scenario: A at priority 10, B at priority
20, both registered for the message event type. -/
def c1Dispatcher : Dispatcher (List String) :=
  ((NewDispatcher (List String)).register EventType.message abortHandlerA 10 "A").register
    EventType.message recordHandlerB 20 "B"

/-- Message event used by the concrete dispatch scenarios. -/
def hiEvent : Event :=
  Event.message { time := 0, selfId := 0, messageType := "private", userId := 1,
                  RawMessage := "hi", groupId := 0 }

/-- C1, evaluated at the failing input: handler A (priority 10) calls
Abort, yet handler B (priority 20) of the same dispatch is still
invoked — the dispatch loop never consults the abort flag, and each
invocation gets a fresh context anyway.  The claim (and the Abort doc
comment in the source) requires invoked = A only. -/
theorem abort_does_not_stop_chain :
    (Dispatch c1Dispatcher hiEvent []).invoked = ["A", "B"] ∧
    (Dispatch c1Dispatcher hiEvent []).world = ["A ran and aborted", "B ran"] := by
  constructor <;> rfl

/- ======================= C2 ======================= -/

/-- Handler A of the metadata scenario: stores x = 1 in the context
metadata. -/
def metaHandlerA : HandlerFunc (List (Option GoVal)) :=
  fun c s => (c.Set "x" (GoVal.vInt 1), s, Outcome.ok)

/-- Handler B of the metadata scenario: records what Get x returns. -/
def metaHandlerB : HandlerFunc (List (Option GoVal)) :=
  fun c s => (c, s ++ [c.Get "x"], Outcome.ok)

/-- Dispatcher of the metadata scenario: A at priority 10, B at
priority 20, registered for the message event type. -/
def c2Dispatcher : Dispatcher (List (Option GoVal)) :=
  ((NewDispatcher (List (Option GoVal))).register EventType.message metaHandlerA 10 "A").register
    EventType.message metaHandlerB 20 "B"

/-- C2, evaluated at the failing input: dispatching the message event
with raw message hi, handler B observes Get x = none, not 1 — each
handler invocation builds a fresh context with an empty metadata map,
so nothing A stores is visible to B.  The claim (and the Metadata doc
comment in the source) requires B to observe x = 1. -/
theorem metadata_not_shared :
    (Dispatch c2Dispatcher hiEvent []).world = [none] ∧
    (Dispatch c2Dispatcher hiEvent []).world ≠ [some (GoVal.vInt 1)] := by
  constructor
  · rfl
  · intro h
    simp [show (Dispatch c2Dispatcher hiEvent []).world = [none] from rfl] at h

/- ======================= C9 ======================= -/

/-- C9: a call issued while the connected flag is false returns the
not-connected error immediately and leaves the server state — in
particular the pending-calls table — exactly as it was: the IsConnected
check precedes the Store. -/
theorem call_without_connection (st : SrvState) (echo : String)
    (marshalOk sendOk : Bool) (h : st.connected = false) :
    CallAPIentry st echo marshalOk sendOk =
      (st, CallEntry.errored "not connected to OneBot client") := by
  simp [CallAPIentry, h]

/-- Witness for C9 at the initial server state and token e1. -/
theorem call_without_connection_witness :
    initSrv.connected = false ∧
    CallAPIentry initSrv "e1" true true =
      (initSrv, CallEntry.errored "not connected to OneBot client") :=
  ⟨rfl, call_without_connection initSrv "e1" true true rfl⟩

/- ======================= C8 ======================= -/

/-- Chain that panics with a plain string value (a Go panic whose value
does not implement the error interface). -/
def plainPanicHandler : HandlerFunc Unit :=
  fun c s => (c, s, Outcome.panicked (PanicVal.plain (GoVal.vStr "boom")))

/-- Counterexample to C8 as stated: RecoveryMiddleware wrapping a chain
that panics with the non-error value boom returns the nil error
Outcome.ok — the recover branch only assigns err when the recovered
value type-asserts to error, so the panic is swallowed rather than
converted into a non-nil error result. -/
theorem recovery_swallows_plain_panic :
    (RecoveryMiddleware plainPanicHandler (freshContext hiEvent) ()).2.2 = Outcome.ok := by
  rfl

/-- C8 as amended: RecoveryMiddleware stops every panic from
propagating; a panic whose value implements the error interface is
converted into that non-nil error, a panic with any other value yields
a nil error result; normal returns — error or nil — pass through
unchanged. -/
theorem recovery_behaviour {σ : Type} (next : HandlerFunc σ) (ctx : Context) (s : σ)
    (c1 : Context) (s1 : σ) :
    (∀ e, next ctx s = (c1, s1, Outcome.err e) →
      RecoveryMiddleware next ctx s = (c1, s1, Outcome.err e)) ∧
    (next ctx s = (c1, s1, Outcome.ok) →
      RecoveryMiddleware next ctx s = (c1, s1, Outcome.ok)) ∧
    (∀ e, next ctx s = (c1, s1, Outcome.panicked (PanicVal.errVal e)) →
      RecoveryMiddleware next ctx s = (c1, s1, Outcome.err e)) ∧
    (∀ v, next ctx s = (c1, s1, Outcome.panicked (PanicVal.plain v)) →
      RecoveryMiddleware next ctx s = (c1, s1, Outcome.ok)) ∧
    (∀ pv, (RecoveryMiddleware next ctx s).2.2 ≠ Outcome.panicked pv) := by
  refine ⟨?_, ?_, ?_, ?_, ?_⟩
  · intro e h
    simp [RecoveryMiddleware, h]
  · intro h
    simp [RecoveryMiddleware, h]
  · intro e h
    simp [RecoveryMiddleware, h]
  · intro v h
    simp [RecoveryMiddleware, h]
  · intro pv
    rcases hr : next ctx s with ⟨c2, s2, out⟩
    cases out with
    | ok => simp [RecoveryMiddleware, hr]
    | err e => simp [RecoveryMiddleware, hr]
    | panicked v =>
        cases v with
        | errVal e => simp [RecoveryMiddleware, hr]
        | plain g => simp [RecoveryMiddleware, hr]

/-- Chain that panics with a value implementing the error interface. -/
def errPanicHandler : HandlerFunc Unit :=
  fun c s => (c, s, Outcome.panicked (PanicVal.errVal "kaboom"))

/-- Witness for C8 as amended, at concrete chains: an error-valued
panic becomes the error kaboom, and a chain returning the plain error
oops passes through unmasked. -/
theorem recovery_behaviour_witness :
    RecoveryMiddleware errPanicHandler (freshContext hiEvent) () =
      (freshContext hiEvent, (), Outcome.err "kaboom") ∧
    RecoveryMiddleware (fun c s => (c, s, Outcome.err "oops")) (freshContext hiEvent) () =
      (freshContext hiEvent, (), Outcome.err "oops") :=
  ⟨(recovery_behaviour errPanicHandler (freshContext hiEvent) () (freshContext hiEvent) ()).2.2.1
      "kaboom" rfl,
   (recovery_behaviour (fun c s => (c, s, Outcome.err "oops")) (freshContext hiEvent) ()
      (freshContext hiEvent) ()).1 "oops" rfl⟩

/- ======================= C6 ======================= -/

/-- C6: (a) the dispatch loop invokes every handler of the chain no
matter what the earlier handlers return — a non-nil error never
shortens the invocation trace; (b) a panic escaping the wrapped
invocation is caught at the invokeHandler boundary and converted into
the non-nil error panic in handler name: v; (c) with an error handler
configured, that error is reported to the sink and the loop then
continues with the remaining handlers. -/
theorem handler_failure_isolated {σ : Type} :
    (∀ (d : Dispatcher σ) (event : Event) (et : EventType)
        (ws : List (handlerWrapper σ)) (s : σ),
      (dispatchToHandlers d event et ws s).invoked = ws.map (fun w => w.name)) ∧
    (∀ (d : Dispatcher σ) (event : Event) (w : handlerWrapper σ) (s : σ)
        (c1 : Context) (s1 : σ) (v : PanicVal),
      applyMiddlewares w.handler d.middlewares (freshContext event) s =
          (c1, s1, Outcome.panicked v) →
      invokeHandler d event w s =
        (s1, some ("panic in handler " ++ w.name ++ ": " ++ panicText v))) ∧
    (∀ (d : Dispatcher σ) (event : Event) (et : EventType) (w : handlerWrapper σ)
        (rest : List (handlerWrapper σ)) (s : σ) (e : String),
      d.hasErrorHandler = true →
      (invokeHandler d event w s).2 = some e →
      (dispatchToHandlers d event et (w :: rest) s).reported =
        ⟨e, et, w.name⟩ ::
          (dispatchToHandlers d event et rest (invokeHandler d event w s).1).reported) := by
  refine ⟨?_, ?_, ?_⟩
  · intro d event et ws s
    exact dispatchToHandlers_invoked d event et ws s
  · intro d event w s c1 s1 v h
    simp [invokeHandler, h]
  · intro d event et w rest s e hE h
    simp [dispatchToHandlers, h, hE]

/-- Handler that records its run and then returns a non-nil error. -/
def erringHandlerE : HandlerFunc (List String) :=
  fun c s => (c, s ++ ["E ran"], Outcome.err "handler E failed")

/-- Handler that records its run and then panics with an error value. -/
def panickingHandlerP : HandlerFunc (List String) :=
  fun c s => (c, s ++ ["P ran"], Outcome.panicked (PanicVal.errVal "kaboom"))

/-- Wrapper around the panicking handler. -/
def wrapperP : handlerWrapper (List String) :=
  { handler := panickingHandlerP, priority := 10, name := "P" }

/-- Wrapper around the erring handler. -/
def wrapperE : handlerWrapper (List String) :=
  { handler := erringHandlerE, priority := 20, name := "E" }

/-- Wrapper around the plain recording handler. -/
def wrapperB : handlerWrapper (List String) :=
  { handler := recordHandlerB, priority := 30, name := "B" }

/-- Witness for C6 at a concrete chain panicking handler P, erring
handler E, plain handler B: all three are invoked, the panic is
converted to a non-nil error, and that error heads the reported list
while the loop continues. -/
theorem handler_failure_isolated_witness :
    (dispatchToHandlers (NewDispatcher (List String)) hiEvent EventType.message
        [wrapperP, wrapperE, wrapperB] []).invoked = ["P", "E", "B"] ∧
    invokeHandler (NewDispatcher (List String)) hiEvent wrapperP [] =
      (["P ran"], some "panic in handler P: kaboom") ∧
    (dispatchToHandlers (NewDispatcher (List String)) hiEvent EventType.message
        [wrapperP, wrapperE, wrapperB] []).reported =
      ⟨"panic in handler P: kaboom", EventType.message, "P"⟩ ::
        (dispatchToHandlers (NewDispatcher (List String)) hiEvent EventType.message
          [wrapperE, wrapperB] ["P ran"]).reported := by
  refine ⟨?_, ?_, ?_⟩
  · exact (handler_failure_isolated.1) (NewDispatcher (List String)) hiEvent
      EventType.message [wrapperP, wrapperE, wrapperB] []
  · exact (handler_failure_isolated.2.1) (NewDispatcher (List String)) hiEvent
      wrapperP [] (freshContext hiEvent) ["P ran"] (PanicVal.errVal "kaboom") rfl
  · exact (handler_failure_isolated.2.2) (NewDispatcher (List String)) hiEvent
      EventType.message wrapperP [wrapperE, wrapperB] [] "panic in handler P: kaboom" rfl rfl

/- ======================= C7 ======================= -/

/-- Label recorded when a tracing middleware runs its pre part. -/
def bLabel (n : String) : String := "before-" ++ n

/-- Label recorded when a tracing middleware runs its post part. -/
def aLabel (n : String) : String := "after-" ++ n

/-- Tracing middleware n: records its before label, runs next, records
its after label — the observable shape every onion middleware shares. -/
def traceMw (n : String) : Middleware (List String) :=
  fun next => fun c s =>
    let r := next c (s ++ [bLabel n])
    (r.1, r.2.1 ++ [aLabel n], r.2.2)

/-- Terminal handler recording its own execution. -/
def traceHandler : HandlerFunc (List String) :=
  fun c s => (c, s ++ ["handler"], Outcome.ok)

/-- Composing N tracing middlewares onto the tracing terminal handler
yields the trace before-1 .. before-N, handler, after-N .. after-1:
the first middleware of the list is outermost. -/
theorem applyMiddlewares_trace (names : List String) (c : Context) (s : List String) :
    applyMiddlewares traceHandler (names.map traceMw) c s =
      (c, s ++ names.map bLabel ++ ["handler"] ++ (names.map aLabel).reverse, Outcome.ok) := by
  induction names generalizing s with
  | nil => simp [applyMiddlewares, traceHandler]
  | cons n ns ih =>
      show traceMw n (applyMiddlewares traceHandler (ns.map traceMw)) c s = _
      simp only [traceMw, ih, List.map_cons, List.reverse_cons]
      simp [List.append_assoc]

/-- Folding Use over a middleware list appends it to the configured
chain in order. -/
theorem use_foldl_middlewares {σ : Type} (d : Dispatcher σ) (ms : List (Middleware σ)) :
    (ms.foldl (fun d m => d.Use m) d).middlewares = d.middlewares ++ ms := by
  induction ms generalizing d with
  | nil => simp
  | cons m rest ih =>
      rw [List.foldl_cons, ih]
      simp [Dispatcher.Use]

/-- C7: registering N middlewares through Use in order m1 .. mN and
invoking a handler executes m1-before, .., mN-before, the handler,
mN-after, .., m1-after — first-registered outermost — and the wrapped
call finishes with a nil error. -/
theorem middleware_onion_order (names : List String) (priority : Int) (nm : String)
    (event : Event) :
    (invokeHandler
        ((names.map traceMw).foldl (fun d m => d.Use m) (NewDispatcher (List String)))
        event { handler := traceHandler, priority := priority, name := nm } []).1 =
      names.map bLabel ++ ["handler"] ++ (names.map aLabel).reverse ∧
    (invokeHandler
        ((names.map traceMw).foldl (fun d m => d.Use m) (NewDispatcher (List String)))
        event { handler := traceHandler, priority := priority, name := nm } []).2 = none := by
  have hm : ((names.map traceMw).foldl (fun d m => d.Use m)
      (NewDispatcher (List String))).middlewares = names.map traceMw := by
    simp [use_foldl_middlewares, NewDispatcher]
  constructor <;> simp [invokeHandler, hm, applyMiddlewares_trace]

/- ======================= C3 ======================= -/

/-- One Register call: the event-type key, the handler, its priority
and its name. -/
structure RegSpec (σ : Type) where
  eventType : EventType
  handler : HandlerFunc σ
  priority : Int
  name : String

/-- A sequence of Register calls, applied left to right, under a given
sort implementation. -/
def registerAllWith {σ : Type} (sortFn : List (handlerWrapper σ) → List (handlerWrapper σ))
    (d : Dispatcher σ) (regs : List (RegSpec σ)) : Dispatcher σ :=
  regs.foldl (fun d r => registerWith sortFn d r.eventType r.handler r.priority r.name) d

/-- Every registry list stays sorted by priority after any sequence of
registrations, for every sort implementation meeting the sort.Slice
contract. -/
theorem registerAllWith_sorted {σ : Type}
    (sortFn : List (handlerWrapper σ) → List (handlerWrapper σ))
    (hs : SliceSortSpec sortFn) (regs : List (RegSpec σ)) (d : Dispatcher σ)
    (hd : ∀ et, List.Sorted byPriority (d.handlers et)) :
    ∀ et, List.Sorted byPriority ((registerAllWith sortFn d regs).handlers et) := by
  induction regs generalizing d with
  | nil => exact hd
  | cons r rest ih =>
      apply ih
      intro et
      simp only [registerWith]
      by_cases h : et = r.eventType
      · simp only [h, if_pos rfl]
        exact (hs _).2
      · simp only [if_neg h]
        exact hd et

/-- goSort meets the sort.Slice contract. -/
theorem goSort_spec {σ : Type} : SliceSortSpec (goSort (σ := σ)) := by
  intro l
  exact ⟨List.perm_insertionSort byPriority l, List.sorted_insertionSort byPriority l⟩

/-- C3 as amended: for every sort implementation meeting the
sort.Slice contract (permutation, nondecreasing priority — stability is
NOT part of the contract) and every sequence of Register calls, a
subsequent Dispatch invokes the materialized handler list in
nondecreasing priority order; the relative order of equal-priority
handlers is whatever the sort produced and need not be registration
order. -/
theorem dispatch_priority_order {σ : Type}
    (sortFn : List (handlerWrapper σ) → List (handlerWrapper σ))
    (hs : SliceSortSpec sortFn) (regs : List (RegSpec σ)) (event : Event) (s : σ) :
    List.Sorted byPriority
      ((registerAllWith sortFn (NewDispatcher σ) regs).handlers event.typeOf) ∧
    List.Sorted (fun a b => a ≤ b)
      (((registerAllWith sortFn (NewDispatcher σ) regs).handlers event.typeOf).map
        (fun w => w.priority)) ∧
    (Dispatch (registerAllWith sortFn (NewDispatcher σ) regs) event s).invoked =
      ((registerAllWith sortFn (NewDispatcher σ) regs).handlers event.typeOf).map
        (fun w => w.name) := by
  have hsorted : List.Sorted byPriority
      ((registerAllWith sortFn (NewDispatcher σ) regs).handlers event.typeOf) :=
    registerAllWith_sorted sortFn hs regs (NewDispatcher σ)
      (fun _ => List.sorted_nil) event.typeOf
  refine ⟨hsorted, ?_, Dispatch_invoked _ event s⟩
  exact List.pairwise_map.mpr hsorted

/-- Handler with no observable behaviour, used by the registration
scenarios. -/
def noopHandler : HandlerFunc Unit :=
  fun c s => (c, s, Outcome.ok)

/-- Two registrations on the message key in descending priority
order. -/
def c3Regs : List (RegSpec Unit) :=
  [{ eventType := EventType.message, handler := noopHandler, priority := 20, name := "hi" },
   { eventType := EventType.message, handler := noopHandler, priority := 10, name := "lo" }]

/-- Witness for C3 as amended: registering hi at priority 20 then lo at
priority 10 dispatches lo before hi. -/
theorem dispatch_priority_order_witness :
    (Dispatch (registerAllWith goSort (NewDispatcher Unit) c3Regs) hiEvent ()).invoked =
      ["lo", "hi"] := by
  have h := dispatch_priority_order goSort goSort_spec c3Regs hiEvent ()
  rw [h.2.2]
  rfl

/-- Another implementation meeting the sort.Slice contract: sort the
reversed input with a stable insertion sort, so runs of equal
priorities come out in reversed relative order.  Go pdqsort (what
sort.Slice runs above its 12-element insertion-sort threshold) likewise
reorders equal elements during partitioning. -/
def revSort {σ : Type} (l : List (handlerWrapper σ)) : List (handlerWrapper σ) :=
  List.insertionSort byPriority l.reverse

/-- revSort meets the sort.Slice contract. -/
theorem revSort_spec {σ : Type} : SliceSortSpec (revSort (σ := σ)) := by
  intro l
  exact ⟨(List.perm_insertionSort byPriority l.reverse).trans l.reverse_perm,
         List.sorted_insertionSort byPriority l.reverse⟩

/-- Fourteen registrations on the message key, enough to put the Go
slice beyond the stable insertion-sort regime: three runs of equal
priorities 0, 1, 2, a run of 3, then one more priority 0. -/
def c3TieRegs : List (RegSpec Unit) :=
  [{ eventType := EventType.message, handler := noopHandler, priority := 0, name := "h1" },
   { eventType := EventType.message, handler := noopHandler, priority := 0, name := "h2" },
   { eventType := EventType.message, handler := noopHandler, priority := 0, name := "h3" },
   { eventType := EventType.message, handler := noopHandler, priority := 1, name := "h4" },
   { eventType := EventType.message, handler := noopHandler, priority := 1, name := "h5" },
   { eventType := EventType.message, handler := noopHandler, priority := 1, name := "h6" },
   { eventType := EventType.message, handler := noopHandler, priority := 2, name := "h7" },
   { eventType := EventType.message, handler := noopHandler, priority := 2, name := "h8" },
   { eventType := EventType.message, handler := noopHandler, priority := 2, name := "h9" },
   { eventType := EventType.message, handler := noopHandler, priority := 3, name := "h10" },
   { eventType := EventType.message, handler := noopHandler, priority := 3, name := "h11" },
   { eventType := EventType.message, handler := noopHandler, priority := 3, name := "h12" },
   { eventType := EventType.message, handler := noopHandler, priority := 3, name := "h13" },
   { eventType := EventType.message, handler := noopHandler, priority := 0, name := "h14" }]

/-- Counterexample to C3 as stated: the registry sort is only bound by
the sort.Slice contract, under which the fourteen tied registrations
above may be — and under revSort are — dispatched with equal-priority
handlers out of registration order (registration order would be h1 h2
h3 h14 h4 .. h13).  Only the nondecreasing-priority part survives. -/
theorem priority_ties_not_preserved :
    SliceSortSpec (revSort (σ := Unit)) ∧
    (Dispatch (registerAllWith revSort (NewDispatcher Unit) c3TieRegs) hiEvent ()).invoked =
      ["h14", "h2", "h1", "h3", "h6", "h4", "h5", "h8", "h7", "h9",
       "h12", "h10", "h11", "h13"] ∧
    (Dispatch (registerAllWith revSort (NewDispatcher Unit) c3TieRegs) hiEvent ()).invoked ≠
      ["h1", "h2", "h3", "h14", "h4", "h5", "h6", "h7", "h8", "h9",
       "h10", "h11", "h12", "h13"] := by
  refine ⟨revSort_spec, by decide, by decide⟩

/- ======================= C5 ======================= -/

/-- C5, part one: an inbound message matching the call-response shape —
the response unmarshal succeeds and the echo field is non-empty — is
resolved through the pending table and handled as a response only: the
dispatcher world is untouched and the iteration result is resolved, not
dispatched. -/
theorem response_not_dispatched {σ : Type} (d : Dispatcher σ) (st : SrvState) (s : σ)
    (m : WireMsg) (h1 : m.respOk = true) (h2 : m.echo ≠ "") :
    processMessage d st s m =
      (stepAct st (CorrAct.respond m.echo m.resp), s, Handled.resolved) := by
  simp [processMessage, h1, h2]

/-- C5, part two: a message that is not a call response and whose
decoded discriminant is unknown or empty yields the decoding error
unknown post_type; the message is dropped, the server and dispatcher
state are unchanged, and the read loop goes on to process the rest of
the stream exactly as if the bad message had not been there. -/
theorem unknown_post_type_dropped {σ : Type} (d : Dispatcher σ) (st : SrvState) (s : σ)
    (m : WireMsg) (rest : List WireMsg)
    (hr : ¬(m.respOk = true ∧ m.echo ≠ "")) (hb : m.baseOk = true)
    (p1 : m.postType ≠ "message") (p2 : m.postType ≠ "notice")
    (p3 : m.postType ≠ "request") (p4 : m.postType ≠ "meta_event") :
    ParseEvent m = Except.error ("unknown post_type: " ++ m.postType) ∧
    readLoop d st s (m :: rest) =
      ((readLoop d st s rest).1, (readLoop d st s rest).2.1,
        Handled.dropped ("unknown post_type: " ++ m.postType) :: (readLoop d st s rest).2.2) := by
  have hp : ParseEvent m = Except.error ("unknown post_type: " ++ m.postType) := by
    simp [ParseEvent, hb, p1, p2, p3, p4]
  refine ⟨hp, ?_⟩
  have hpm : processMessage d st s m =
      (st, s, Handled.dropped ("unknown post_type: " ++ m.postType)) := by
    simp [processMessage, hr, hp]
  simp [readLoop, hpm]

/-- Wire message with an empty discriminant and no correlation token
(baseOk true, postType empty). -/
def emptyTypeMsg : WireMsg :=
  { respOk := true, echo := "",
    resp := { Status := "", RetCode := 0, Data := none, Message := "" },
    baseOk := true, postType := "", variantOk := true,
    msgPayload := { time := 0, selfId := 0, messageType := "", userId := 0,
                    RawMessage := "", groupId := 0 },
    noticePayload := { noticeType := "", userId := 0 },
    requestPayload := { requestType := "", userId := 0 },
    metaPayload := { metaEventType := "" } }

/-- C5: combined statement.  A wire message carrying a non-empty
correlation token is resolved as a call response and never also
dispatched as an event; a non-response message with an unknown or
empty post_type discriminant yields a decoding error, is dropped, and
the read loop continues over the rest of the stream with all state
unchanged. -/
theorem inbound_message_routing {σ : Type} :
    (∀ (d : Dispatcher σ) (st : SrvState) (s : σ) (m : WireMsg),
      m.respOk = true → m.echo ≠ "" →
      processMessage d st s m =
        (stepAct st (CorrAct.respond m.echo m.resp), s, Handled.resolved)) ∧
    (∀ (d : Dispatcher σ) (st : SrvState) (s : σ) (m : WireMsg) (rest : List WireMsg),
      ¬(m.respOk = true ∧ m.echo ≠ "") → m.baseOk = true →
      m.postType ≠ "message" → m.postType ≠ "notice" →
      m.postType ≠ "request" → m.postType ≠ "meta_event" →
      ParseEvent m = Except.error ("unknown post_type: " ++ m.postType) ∧
      readLoop d st s (m :: rest) =
        ((readLoop d st s rest).1, (readLoop d st s rest).2.1,
          Handled.dropped ("unknown post_type: " ++ m.postType) ::
            (readLoop d st s rest).2.2)) :=
  ⟨fun d st s m h1 h2 => response_not_dispatched d st s m h1 h2,
   fun d st s m rest hr hb p1 p2 p3 p4 =>
     unknown_post_type_dropped d st s m rest hr hb p1 p2 p3 p4⟩

/-- Wire message shaped as a successful call response for token e7. -/
def respMsgE7 : WireMsg :=
  { respOk := true, echo := "e7",
    resp := { Status := "ok", RetCode := 0, Data := none, Message := "" },
    baseOk := true, postType := "", variantOk := true,
    msgPayload := { time := 0, selfId := 0, messageType := "", userId := 0,
                    RawMessage := "", groupId := 0 },
    noticePayload := { noticeType := "", userId := 0 },
    requestPayload := { requestType := "", userId := 0 },
    metaPayload := { metaEventType := "" } }

/-- Witness for C5: the concrete response message for token e7 is
resolved and not dispatched, and the concrete empty-discriminant
message is dropped with the decoding error while the loop goes on. -/
theorem inbound_message_routing_witness :
    processMessage (NewDispatcher Unit) initSrv () respMsgE7 =
      (stepAct initSrv (CorrAct.respond "e7"
          { Status := "ok", RetCode := 0, Data := none, Message := "" }),
        (), Handled.resolved) ∧
    ParseEvent emptyTypeMsg = Except.error "unknown post_type: " ∧
    readLoop (NewDispatcher Unit) initSrv () [emptyTypeMsg] =
      (initSrv, (), [Handled.dropped "unknown post_type: "]) := by
  have h1 := inbound_message_routing.1 (NewDispatcher Unit) initSrv () respMsgE7
    rfl (by decide)
  have h2 := inbound_message_routing.2 (NewDispatcher Unit) initSrv () emptyTypeMsg []
    (by decide) rfl (by decide) (by decide) (by decide) (by decide)
  exact ⟨h1, h2.1, by rw [h2.2]; rfl⟩

/- ======================= C4 ======================= -/

/-- State of a call that has returned: phase finished, entry gone. -/
def FinishedAt (st : SrvState) (e : String) (res : CallResult) : Prop :=
  st.phase e = Phase.finished res ∧ st.inTable e = false

/-- State of a call whose response was handed over by the read loop:
entry gone, and the caller has either not yet received it or has
finished with exactly that response. -/
def HandedAt (st : SrvState) (e : String) (r : APIResponse) : Prop :=
  st.inTable e = false ∧
    (st.phase e = Phase.handed r ∨ st.phase e = Phase.finished (recvResult r))

/-- State of a call blocked in its select with its entry pending. -/
def WaitingAt (st : SrvState) (e : String) : Prop :=
  st.phase e = Phase.waiting ∧ st.inTable e = true

/-- An action on another token leaves this token's phase and table
entry untouched: every step updates the tables pointwise. -/
theorem stepAct_preserves_other (st : SrvState) (a : CorrAct) (e : String)
    (h : a.token ≠ e) :
    (stepAct st a).phase e = st.phase e ∧ (stepAct st a).inTable e = st.inTable e := by
  cases a with
  | start e0 =>
      simp only [CorrAct.token] at h
      simp only [stepAct]
      split
      · simp [updP, updB, Ne.symm h]
      · exact ⟨rfl, rfl⟩
  | respond e0 r =>
      simp only [CorrAct.token] at h
      simp only [stepAct]
      split
      · simp [updP, updB, Ne.symm h]
      · exact ⟨rfl, rfl⟩
  | fire e0 =>
      simp only [CorrAct.token] at h
      simp only [stepAct]
      split
      · simp [failPending, updP, updB, Ne.symm h]
      · exact ⟨rfl, rfl⟩
  | recv e0 =>
      simp only [CorrAct.token] at h
      simp only [stepAct]
      split
      · simp [updP, updB, Ne.symm h]
      · exact ⟨rfl, rfl⟩

/-- LoadAndDelete hit: a response for a pending token removes the
entry and hands the response over. -/
theorem stepAct_respond_hit (st : SrvState) (e : String) (r : APIResponse)
    (h : st.inTable e = true) :
    (stepAct st (CorrAct.respond e r)).phase e = Phase.handed r ∧
    (stepAct st (CorrAct.respond e r)).inTable e = false := by
  simp [stepAct, h, updP, updB]

/-- LoadAndDelete miss: a response whose token is not in the pending
table leaves the whole server state untouched — the late or duplicate
response is silently dropped and no other pending call is affected. -/
theorem stepAct_respond_miss (st : SrvState) (e : String) (r : APIResponse)
    (h : st.inTable e = false) :
    stepAct st (CorrAct.respond e r) = st := by
  simp [stepAct, h]

/-- Timeout firing against a waiting call removes the entry and
finishes the call with the timeout error. -/
theorem stepAct_fire_hit (st : SrvState) (e : String) (h : WaitingAt st e) :
    FinishedAt (stepAct st (CorrAct.fire e)) e (CallResult.failed "API call timeout") := by
  obtain ⟨h1, _⟩ := h
  constructor <;> simp [stepAct, h1, failPending, updP, updB]

/-- A finished call is absorbing under one step: its token can never
be started, matched, fired or received again. -/
theorem finished_step (st : SrvState) (a : CorrAct) (e : String) (res : CallResult)
    (h : FinishedAt st e res) : FinishedAt (stepAct st a) e res := by
  obtain ⟨h1, h2⟩ := h
  by_cases ht : a.token = e
  · cases a with
    | start e0 =>
        simp only [CorrAct.token] at ht
        subst ht
        constructor <;> simp [stepAct, h1, h2]
    | respond e0 r =>
        simp only [CorrAct.token] at ht
        subst ht
        constructor <;> simp [stepAct, h1, h2]
    | fire e0 =>
        simp only [CorrAct.token] at ht
        subst ht
        constructor <;> simp [stepAct, h1, h2]
    | recv e0 =>
        simp only [CorrAct.token] at ht
        subst ht
        constructor <;> simp [stepAct, h1, h2]
  · obtain ⟨hp, hi⟩ := stepAct_preserves_other st a e ht
    exact ⟨hp.trans h1, hi.trans h2⟩

/-- A finished call stays finished with the same result across any
further interleaving. -/
theorem finished_run (e : String) (res : CallResult) (acts : List CorrAct) :
    ∀ (st : SrvState), FinishedAt st e res → FinishedAt (runActs st acts) e res := by
  induction acts with
  | nil => intro st h; exact h
  | cons a rest ih => intro st h; exact ih _ (finished_step st a e res h)

/-- A handed response evolves only by being consumed: across one step
the call either still holds the handed response or has finished with
exactly that response; the entry never reappears. -/
theorem handed_step (st : SrvState) (a : CorrAct) (e : String) (r : APIResponse)
    (h : HandedAt st e r) : HandedAt (stepAct st a) e r := by
  obtain ⟨hi, hp⟩ := h
  by_cases ht : a.token = e
  · cases a with
    | start e0 =>
        simp only [CorrAct.token] at ht
        subst ht
        rcases hp with hp | hp <;>
          exact ⟨by simp [stepAct, hp, hi], by simp [stepAct, hp, hi]⟩
    | respond e0 r0 =>
        simp only [CorrAct.token] at ht
        subst ht
        rw [stepAct_respond_miss st e0 r0 hi]
        exact ⟨hi, hp⟩
    | fire e0 =>
        simp only [CorrAct.token] at ht
        subst ht
        rcases hp with hp | hp <;>
          exact ⟨by simp [stepAct, hp, hi], by simp [stepAct, hp, hi]⟩
    | recv e0 =>
        simp only [CorrAct.token] at ht
        subst ht
        rcases hp with hp | hp
        · refine ⟨by simp [stepAct, hp, hi], Or.inr ?_⟩
          simp [stepAct, hp, updP]
        · exact ⟨by simp [stepAct, hp, hi], Or.inr (by simp [stepAct, hp])⟩
  · obtain ⟨hp2, hi2⟩ := stepAct_preserves_other st a e ht
    refine ⟨hi2.trans hi, ?_⟩
    rcases hp with hp | hp
    · exact Or.inl (hp2.trans hp)
    · exact Or.inr (hp2.trans hp)

/-- The handed invariant across any interleaving. -/
theorem handed_run (e : String) (r : APIResponse) (acts : List CorrAct) :
    ∀ (st : SrvState), HandedAt st e r → HandedAt (runActs st acts) e r := by
  induction acts with
  | nil => intro st h; exact h
  | cons a rest ih => intro st h; exact ih _ (handed_step st a e r h)

/-- Receiving from a handed state finishes the call with exactly the
handed response. -/
theorem recv_from_handed (st : SrvState) (e : String) (r : APIResponse)
    (h : HandedAt st e r) :
    FinishedAt (stepAct st (CorrAct.recv e)) e (recvResult r) := by
  obtain ⟨hi, hp⟩ := h
  rcases hp with hp | hp
  · exact ⟨by simp [stepAct, hp, updP], by simp [stepAct, hp, hi]⟩
  · exact ⟨by simp [stepAct, hp], by simp [stepAct, hp, hi]⟩

/-- A waiting call stays waiting under a step that is neither a
response nor a timeout for its token. -/
theorem waiting_step (st : SrvState) (a : CorrAct) (e : String) (h : WaitingAt st e)
    (hr : ∀ r, a ≠ CorrAct.respond e r) (hf : a ≠ CorrAct.fire e) :
    WaitingAt (stepAct st a) e := by
  obtain ⟨h1, h2⟩ := h
  by_cases ht : a.token = e
  · cases a with
    | start e0 =>
        simp only [CorrAct.token] at ht
        subst ht
        exact ⟨by simp [stepAct, h1], by simp [stepAct, h1, h2]⟩
    | respond e0 r0 =>
        simp only [CorrAct.token] at ht
        subst ht
        exact absurd rfl (hr r0)
    | fire e0 =>
        simp only [CorrAct.token] at ht
        subst ht
        exact absurd rfl hf
    | recv e0 =>
        simp only [CorrAct.token] at ht
        subst ht
        exact ⟨by simp [stepAct, h1], by simp [stepAct, h1, h2]⟩
  · obtain ⟨hp2, hi2⟩ := stepAct_preserves_other st a e ht
    exact ⟨hp2.trans h1, hi2.trans h2⟩

/-- A waiting call stays waiting across any interleaving that contains
no response and no timeout for its token. -/
theorem waiting_run (e : String) (acts : List CorrAct) :
    ∀ (st : SrvState), WaitingAt st e →
      (∀ r, CorrAct.respond e r ∉ acts) → CorrAct.fire e ∉ acts →
      WaitingAt (runActs st acts) e := by
  induction acts with
  | nil => intro st h _ _; exact h
  | cons a rest ih =>
      intro st h hr hf
      refine ih _ (waiting_step st a e h ?_ ?_) ?_ ?_
      · intro r heq
        exact hr r (heq ▸ List.mem_cons_self a rest)
      · intro heq
        exact hf (heq ▸ List.mem_cons_self a rest)
      · intro r hm
        exact hr r (List.mem_cons_of_mem a hm)
      · intro hm
        exact hf (List.mem_cons_of_mem a hm)

/-- C4: over every interleaving of correlator actions —
(1) if the matching response arrives while the call is still pending
(no timeout has fired for its token up to that point), then however the
interleaving continues, once the caller takes its select branch the
call is finished with exactly that response, the entry is gone, and
nothing can ever change that result again (delivered exactly once);
(2) if the timeout fires first, the pending entry is removed and the
call is finished with the timeout error forever, and a late response
for that token is the identity on the whole server state — dropped
silently without affecting any other pending call;
(3) a token absent from the pending table (already consumed or
removed) is never matched: responding to it changes nothing. -/
theorem call_response_correlation :
    (∀ (st : SrvState) (e : String) (r : APIResponse)
        (acts1 acts2 acts3 : List CorrAct),
      WaitingAt st e →
      (∀ r0, CorrAct.respond e r0 ∉ acts1) → CorrAct.fire e ∉ acts1 →
      FinishedAt
        (runActs st (acts1 ++ [CorrAct.respond e r] ++ acts2 ++ [CorrAct.recv e] ++ acts3))
        e (recvResult r)) ∧
    (∀ (st : SrvState) (e : String) (r : APIResponse) (acts1 acts2 : List CorrAct),
      WaitingAt st e →
      (∀ r0, CorrAct.respond e r0 ∉ acts1) → CorrAct.fire e ∉ acts1 →
      FinishedAt (runActs st (acts1 ++ [CorrAct.fire e])) e
        (CallResult.failed "API call timeout") ∧
      stepAct (runActs st (acts1 ++ [CorrAct.fire e])) (CorrAct.respond e r) =
        runActs st (acts1 ++ [CorrAct.fire e]) ∧
      FinishedAt (runActs (runActs st (acts1 ++ [CorrAct.fire e])) acts2) e
        (CallResult.failed "API call timeout")) ∧
    (∀ (st : SrvState) (e : String) (r : APIResponse),
      st.inTable e = false → stepAct st (CorrAct.respond e r) = st) := by
  have hsplit : ∀ (st : SrvState) (l1 l2 : List CorrAct),
      runActs st (l1 ++ l2) = runActs (runActs st l1) l2 := by
    intro st l1 l2
    simp [runActs, List.foldl_append]
  refine ⟨?_, ?_, ?_⟩
  · intro st e r acts1 acts2 acts3 hw hr hf
    have h1 : WaitingAt (runActs st acts1) e := waiting_run e acts1 st hw hr hf
    have h2 : HandedAt (runActs (runActs st acts1) [CorrAct.respond e r]) e r := by
      have hh := stepAct_respond_hit (runActs st acts1) e r h1.2
      exact ⟨hh.2, Or.inl hh.1⟩
    have h3 : HandedAt
        (runActs (runActs (runActs st acts1) [CorrAct.respond e r]) acts2) e r :=
      handed_run e r acts2 _ h2
    have h4 : FinishedAt
        (runActs (runActs (runActs (runActs st acts1) [CorrAct.respond e r]) acts2)
          [CorrAct.recv e]) e (recvResult r) :=
      recv_from_handed _ e r h3
    have h5 := finished_run e (recvResult r) acts3 _ h4
    simp only [hsplit]
    exact h5
  · intro st e r acts1 acts2 hw hr hf
    have h1 : WaitingAt (runActs st acts1) e := waiting_run e acts1 st hw hr hf
    have h2 : FinishedAt (stepAct (runActs st acts1) (CorrAct.fire e)) e
        (CallResult.failed "API call timeout") := stepAct_fire_hit _ e h1
    have heq : runActs st (acts1 ++ [CorrAct.fire e]) =
        stepAct (runActs st acts1) (CorrAct.fire e) := by
      rw [hsplit]
      rfl
    refine ⟨?_, ?_, ?_⟩
    · rw [heq]
      exact h2
    · rw [heq]
      exact stepAct_respond_miss _ e r h2.2
    · rw [heq]
      exact finished_run e _ acts2 _ h2
  · intro st e r h
    exact stepAct_respond_miss st e r h

/-- Server state with an active connection and an empty pending
table. -/
def connSrv : SrvState :=
  { connected := true
    hasActiveClient := true
    inTable := fun _ => false
    phase := fun _ => Phase.idle }

/-- State right after a call with token e1 reaches its select. -/
def pendingE1 : SrvState := stepAct connSrv (CorrAct.start "e1")

/-- A successful response payload. -/
def okResp : APIResponse :=
  { Status := "ok", RetCode := 0, Data := none, Message := "" }

/-- Witness for C4 at the concrete token e1: the pending call receives
its matching response exactly once; after a timeout it is finished
with the timeout error and a late response changes nothing; and a
response for the never-pending token zz changes nothing. -/
theorem call_response_correlation_witness :
    WaitingAt pendingE1 "e1" ∧
    FinishedAt (runActs pendingE1 [CorrAct.respond "e1" okResp, CorrAct.recv "e1"])
      "e1" (CallResult.success okResp) ∧
    FinishedAt (runActs pendingE1 [CorrAct.fire "e1"]) "e1"
      (CallResult.failed "API call timeout") ∧
    stepAct (runActs pendingE1 [CorrAct.fire "e1"]) (CorrAct.respond "e1" okResp) =
      runActs pendingE1 [CorrAct.fire "e1"] ∧
    stepAct connSrv (CorrAct.respond "zz" okResp) = connSrv := by
  have hw : WaitingAt pendingE1 "e1" := ⟨by decide, by decide⟩
  have hnil1 : ∀ r0, CorrAct.respond "e1" r0 ∉ ([] : List CorrAct) :=
    fun r0 => List.not_mem_nil _
  have hnil2 : CorrAct.fire "e1" ∉ ([] : List CorrAct) := List.not_mem_nil _
  refine ⟨hw, ?_, ?_, ?_, ?_⟩
  · exact call_response_correlation.1 pendingE1 "e1" okResp [] [] [] hw hnil1 hnil2
  · exact (call_response_correlation.2.1 pendingE1 "e1" okResp [] [] hw hnil1 hnil2).1
  · exact (call_response_correlation.2.1 pendingE1 "e1" okResp [] [] hw hnil1 hnil2).2.1
  · exact call_response_correlation.2.2 connSrv "zz" okResp (by decide)
